import Mathlib

/-!
# Views, view registry, aggregator selection and pull controller

A shallow embedding of `sdk/metric/views/views.go` together with the parts of
the metric pipeline that the repository only exercises through its tests
(`selector/simple`, `controller/pull`), followed by theorems about them.

Conventions of the embedding:

* a Go `string` is a `String`, `attribute.Key` (a named string type) too;
* `sdkinstrument.Kind` and `number.Kind` are signed integer types (the source
  converts the constant `-1` to both); they are embedded as `Int`;
* a possibly-nil pointer `*regexp.Regexp` is an `Option Regexp`, `none` being
  `nil`;
* a Go slice that may be `nil` is an `Option (List _)`: `none` is the nil
  slice, `some []` is the empty, non-nil slice;
* the types `aggregation.Kind`, `aggregation.Temporality` and
  `aggregator.Config` are declared outside the repository; `Config` takes them
  as type parameters, and `default` stands for the Go zero value.
-/

set_option autoImplicit false

namespace instrumentation

/-- The struct `instrumentation.Library`: the three fields `View.Matches` reads. -/
structure Library where
  Name : String
  Version : String
  SchemaURL : String
  deriving DecidableEq, Repr, Inhabited

end instrumentation

namespace sdkinstrument

/-- The struct `sdkinstrument.Descriptor`: the three fields `View.Matches` reads. -/
structure Descriptor where
  Name : String
  Kind : Int
  NumberKind : Int
  deriving DecidableEq, Repr, Inhabited

end sdkinstrument

namespace regexp

/-- A compiled `regexp.Regexp`, seen through the one method the views package
calls on it, `MatchString`. -/
structure Regexp where
  MatchString : String → Bool

end regexp

namespace goslice

/-- The Go builtin `append(s, elems...)` on slices that may be nil. Appending
no elements needs no new storage and returns `s` itself, so a nil `s` stays
nil; appending at least one element yields a non-nil slice. -/
def append {α : Type} (s elems : Option (List α)) : Option (List α) :=
  match elems.getD [] with
  | [] => s
  | e :: es => some (s.getD [] ++ e :: es)

end goslice

namespace views

open instrumentation sdkinstrument regexp

/-- The struct `views.Config`. -/
structure Config (AK TP AC : Type) where
  instrumentName : String
  instrumentNameRegexp : Option Regexp
  instrumentKind : Int
  numberKind : Int
  library : Library
  keys : Option (List String)
  name : String
  description : String
  aggregation : AK
  temporality : TP
  acfg : AC

/-- The struct `views.View`. -/
structure View (AK TP AC : Type) where
  cfg : Config AK TP AC

/-- The function type `views.Option`, `func(cfg *Config)`: the update it
performs on the configuration it is handed. -/
abbrev ViewOption (AK TP AC : Type) := Config AK TP AC → Config AK TP AC

/-- The constant `unsetInstrumentKind = sdkinstrument.Kind(-1)`. -/
def unsetInstrumentKind : Int := -1

/-- The constant `unsetNumberKind = number.Kind(-1)`. -/
def unsetNumberKind : Int := -1

section options

variable {AK TP AC : Type}

def MatchInstrumentName (name : String) : ViewOption AK TP AC :=
  fun cfg => { cfg with instrumentName := name }

def MatchInstrumentNameRegexp (re : Option Regexp) : ViewOption AK TP AC :=
  fun cfg => { cfg with instrumentNameRegexp := re }

def MatchInstrumentKind (k : Int) : ViewOption AK TP AC :=
  fun cfg => { cfg with instrumentKind := k }

def MatchNumberKind (k : Int) : ViewOption AK TP AC :=
  fun cfg => { cfg with numberKind := k }

def MatchInstrumentationLibrary (lib : Library) : ViewOption AK TP AC :=
  fun cfg => { cfg with library := lib }

/-- The option `WithKeys(keys ...attribute.Key)`. The variadic parameter is nil
when the call passes no argument or spreads a nil slice, and non-nil (possibly
empty) when it spreads a non-nil slice. -/
def WithKeys (keys : Option (List String)) : ViewOption AK TP AC :=
  fun cfg =>
    if keys = none then { cfg with keys := none }
    else { cfg with keys := goslice.append cfg.keys keys }

def WithName (name : String) : ViewOption AK TP AC :=
  fun cfg => { cfg with name := name }

def WithDescription (desc : String) : ViewOption AK TP AC :=
  fun cfg => { cfg with description := desc }

def WithAggregation (kind : AK) : ViewOption AK TP AC :=
  fun cfg => { cfg with aggregation := kind }

def WithTemporality (tempo : TP) : ViewOption AK TP AC :=
  fun cfg => { cfg with temporality := tempo }

def WithAggregatorConfig (acfg : AC) : ViewOption AK TP AC :=
  fun cfg => { cfg with acfg := acfg }

/-- The composite literal `Config{instrumentKind: unsetInstrumentKind,
numberKind: unsetNumberKind}` that `New` starts from: every other field has its
zero value. -/
def initialConfig [Inhabited AK] [Inhabited TP] [Inhabited AC] : Config AK TP AC :=
  { instrumentName := ""
    instrumentNameRegexp := none
    instrumentKind := unsetInstrumentKind
    numberKind := unsetNumberKind
    library := { Name := "", Version := "", SchemaURL := "" }
    keys := none
    name := ""
    description := ""
    aggregation := default
    temporality := default
    acfg := default }

/-- The constructor `New(opts ...Option)`: the options are applied in order to
the initial configuration. -/
def New [Inhabited AK] [Inhabited TP] [Inhabited AC]
    (opts : List (ViewOption AK TP AC)) : View AK TP AC :=
  { cfg := opts.foldl (fun cfg opt => opt cfg) initialConfig }

def View.IsSingleInstrument (v : View AK TP AC) : Bool :=
  v.cfg.instrumentName != ""

def View.HasName (v : View AK TP AC) : Bool :=
  v.cfg.name != ""

def View.Name (v : View AK TP AC) : String :=
  v.cfg.name

def View.Keys (v : View AK TP AC) : Option (List String) :=
  v.cfg.keys

def View.Description (v : View AK TP AC) : String :=
  v.cfg.description

def View.Aggregation (v : View AK TP AC) : AK :=
  v.cfg.aggregation

def View.Temporality (v : View AK TP AC) : TP :=
  v.cfg.temporality

def View.AggregatorConfig (v : View AK TP AC) : AC :=
  v.cfg.acfg

def stringMismatch (test value : String) : Bool :=
  test != "" && test != value

def ikindMismatch (test value : Int) : Bool :=
  test != unsetInstrumentKind && test != value

def nkindMismatch (test value : Int) : Bool :=
  test != unsetNumberKind && test != value

/-- The function `regexpMismatch`: `test != nil && test.MatchString(value)`. -/
def regexpMismatch (test : Option Regexp) (value : String) : Bool :=
  match test with
  | none => false
  | some re => re.MatchString value

def View.Matches (v : View AK TP AC) (lib : Library) (desc : Descriptor) : Bool :=
  !stringMismatch v.cfg.library.Name lib.Name &&
    !stringMismatch v.cfg.library.Version lib.Version &&
    !stringMismatch v.cfg.library.SchemaURL lib.SchemaURL &&
    !stringMismatch v.cfg.instrumentName desc.Name &&
    !ikindMismatch v.cfg.instrumentKind desc.Kind &&
    !nkindMismatch v.cfg.numberKind desc.NumberKind &&
    !regexpMismatch v.cfg.instrumentNameRegexp desc.Name

end options

section calls

/-- The fields of the struct `views.Config`, in declaration order. -/
inductive Field where
  | instrumentName
  | instrumentNameRegexp
  | instrumentKind
  | numberKind
  | library
  | keys
  | name
  | description
  | aggregation
  | temporality
  | acfg
  deriving DecidableEq, Repr

/-- The five matcher fields of `Config` (the block under the comment "Matchers for
the instrument"); the other six are the properties of the view. -/
def Field.isMatcher : Field → Bool
  | Field.instrumentName => true
  | Field.instrumentNameRegexp => true
  | Field.instrumentKind => true
  | Field.numberKind => true
  | Field.library => true
  | _ => false

/-- A call of one of the eleven option constructors of `views.go`, with its
argument. The fields of `Config` are unexported, so these calls are the only way
for code outside the package to obtain an `Option` that changes a `Config`. -/
inductive OptionCall (AK TP AC : Type) where
  | matchInstrumentName (name : String)
  | matchInstrumentNameRegexp (re : Option Regexp)
  | matchInstrumentKind (k : Int)
  | matchNumberKind (k : Int)
  | matchInstrumentationLibrary (lib : Library)
  | withKeys (keys : Option (List String))
  | withName (name : String)
  | withDescription (desc : String)
  | withAggregation (kind : AK)
  | withTemporality (tempo : TP)
  | withAggregatorConfig (acfg : AC)

variable {AK TP AC : Type}

/-- The `Option` value that a constructor call returns. -/
def OptionCall.option : OptionCall AK TP AC → ViewOption AK TP AC
  | OptionCall.matchInstrumentName name => MatchInstrumentName name
  | OptionCall.matchInstrumentNameRegexp re => MatchInstrumentNameRegexp re
  | OptionCall.matchInstrumentKind k => MatchInstrumentKind k
  | OptionCall.matchNumberKind k => MatchNumberKind k
  | OptionCall.matchInstrumentationLibrary lib => MatchInstrumentationLibrary lib
  | OptionCall.withKeys keys => WithKeys keys
  | OptionCall.withName name => WithName name
  | OptionCall.withDescription desc => WithDescription desc
  | OptionCall.withAggregation kind => WithAggregation kind
  | OptionCall.withTemporality tempo => WithTemporality tempo
  | OptionCall.withAggregatorConfig acfg => WithAggregatorConfig acfg

/-- The field of `Config` that the option returned by a constructor call assigns. -/
def OptionCall.field : OptionCall AK TP AC → Field
  | OptionCall.matchInstrumentName _ => Field.instrumentName
  | OptionCall.matchInstrumentNameRegexp _ => Field.instrumentNameRegexp
  | OptionCall.matchInstrumentKind _ => Field.instrumentKind
  | OptionCall.matchNumberKind _ => Field.numberKind
  | OptionCall.matchInstrumentationLibrary _ => Field.library
  | OptionCall.withKeys _ => Field.keys
  | OptionCall.withName _ => Field.name
  | OptionCall.withDescription _ => Field.description
  | OptionCall.withAggregation _ => Field.aggregation
  | OptionCall.withTemporality _ => Field.temporality
  | OptionCall.withAggregatorConfig _ => Field.acfg

/-- The option list `opts...` that a list of constructor calls denotes. -/
def options (calls : List (OptionCall AK TP AC)) : List (ViewOption AK TP AC) :=
  calls.map OptionCall.option

/-- The calls of a list that do not assign field `f`, in order. -/
def without (f : Field) (calls : List (OptionCall AK TP AC)) :
    List (OptionCall AK TP AC) :=
  calls.filter (fun c => decide (c.field ≠ f))

end calls

section registry

variable {AK TP AC : Type}

/-- Modelled from the spec: the View Registry of section 4.2, whose code is not
among the sources (only `View.Matches` is). It is the ordered collection of the
registered views, in registration order. -/
structure Registry (AK TP AC : Type) where
  views : List (View AK TP AC)

/-- Modelled from the spec: the registry before any `Register` call. -/
def Registry.empty : Registry AK TP AC :=
  { views := [] }

/-- Modelled from the spec: `Register(view)` of section 4.2, absent from the
sources; a view is registered after all the views registered before it. -/
def Registry.Register (r : Registry AK TP AC) (v : View AK TP AC) : Registry AK TP AC :=
  { views := r.views ++ [v] }

/-- Modelled from the spec: `Lookup(library, descriptor) -> optional View` of
section 4.2, absent from the sources: "returns the first match in registration
order", a match being decided by `View.Matches`; "absence of a match yields no
override". -/
def Registry.Lookup (r : Registry AK TP AC) (lib : Library) (desc : Descriptor) :
    Option (View AK TP AC) :=
  r.views.find? (fun v => v.Matches lib desc)

end registry

end views

namespace simple

/-- Modelled from the spec: the instrument kinds of section 3, in the order the
spec lists them; their declaration (`metric.InstrumentKind`) is not among the
sources. -/
inductive InstrumentKind where
  | Counter
  | UpDownCounter
  | SumObserver
  | UpDownSumObserver
  | ValueRecorder
  | ValueObserver
  deriving DecidableEq, Repr

/-- Modelled from the spec: the number representation of section 3 ("integer or
floating-point"); its declaration (`number.Kind`) is not among the sources. -/
inductive NumberKind where
  | Int64Kind
  | Float64Kind
  deriving DecidableEq, Repr

/-- Modelled from the spec: the instrument descriptor of section 3 as the
selector sees it (`metric.NewDescriptor(name, instrumentKind, numberKind)` in
`simple_test.go`); its declaration is not among the sources. -/
structure Descriptor where
  name : String
  instrumentKind : InstrumentKind
  numberKind : NumberKind
  deriving DecidableEq, Repr

/-- Modelled from the spec: the closed set of accumulator variants of section
4.1 and design note 9 ("a variant tag plus configuration"). The sketch and the
histogram carry their variant-specific configuration, of types `SK` and `HB`
declared outside the sources. -/
inductive Aggregator (SK HB : Type) where
  | sum
  | lastvalue
  | minmaxsumcount
  | ddsketch (config : SK)
  | array
  | histogram (boundaries : HB)
  deriving DecidableEq, Repr

/-- Modelled from the spec: the four selector configurations "chosen at setup
time", built in `simple_test.go` by `NewWithInexpensiveDistribution()`,
`NewWithSketchDistribution(config)`, `NewWithExactDistribution()` and
`NewWithHistogramDistribution(boundaries)`; the package itself is not among the
sources. -/
inductive Selector (SK HB : Type) where
  | inexpensive
  | sketch (config : SK)
  | exact
  | histogram (boundaries : HB)
  deriving DecidableEq, Repr

section selector

variable {SK HB : Type}

def NewWithInexpensiveDistribution : Selector SK HB :=
  Selector.inexpensive

def NewWithSketchDistribution (config : SK) : Selector SK HB :=
  Selector.sketch config

def NewWithExactDistribution : Selector SK HB :=
  Selector.exact

def NewWithHistogramDistribution (boundaries : HB) : Selector SK HB :=
  Selector.histogram boundaries

/-- Modelled from the spec: the default mapping of section 4.1, absent from the
sources: "Counter/UpDownCounter/SumObserver/UpDownSumObserver -> running-sum
accumulator; ValueObserver -> last-value accumulator; ValueRecorder -> one of
{min/max/sum/count, fixed-bucket histogram, exact-value array, approximate
sketch}, selected by the selector configuration chosen at setup time". -/
def Selector.AggregatorFor (sel : Selector SK HB) (descriptor : Descriptor) :
    Aggregator SK HB :=
  match descriptor.instrumentKind with
  | InstrumentKind.ValueObserver => Aggregator.lastvalue
  | InstrumentKind.ValueRecorder =>
    match sel with
    | Selector.inexpensive => Aggregator.minmaxsumcount
    | Selector.sketch config => Aggregator.ddsketch config
    | Selector.exact => Aggregator.array
    | Selector.histogram boundaries => Aggregator.histogram boundaries
  | InstrumentKind.Counter => Aggregator.sum
  | InstrumentKind.UpDownCounter => Aggregator.sum
  | InstrumentKind.SumObserver => Aggregator.sum
  | InstrumentKind.UpDownSumObserver => Aggregator.sum

/-- Modelled from the spec: the contract `SelectFor(descriptor,
overrideAggregationKind)` of section 4.1, absent from the sources: "an override
from a matched View, if it specifies an aggregation kind, takes precedence over
the default mapping". -/
def Selector.SelectFor (sel : Selector SK HB) (descriptor : Descriptor)
    (overrideAggregation : Option (Aggregator SK HB)) : Aggregator SK HB :=
  match overrideAggregation with
  | some agg => agg
  | none => sel.AggregatorFor descriptor

end selector

end simple

namespace pull

/-- Modelled from the spec: a series of section 3, "the pairing (Descriptor,
Label Set)", the label set in its canonical encoding (`counter.sum` with
`A=B` in `pull_test.go`). -/
structure Series where
  descriptor : String
  labels : String
  deriving DecidableEq, Repr

/-- Modelled from the spec: the two answers of the export-kind policy of
section 4.3. -/
inductive ExportKind where
  | Cumulative
  | Delta
  deriving DecidableEq, Repr

/-- Modelled from the spec: a record as `ForEach` hands it to `visit`, a series
with its aggregated value. -/
structure Record where
  series : Series
  value : Int
  deriving DecidableEq, Repr

/-- Modelled from the spec: the running-sum accumulator contract of section 6,
`Update(rawValue)`. -/
def Accumulator.Update (acc rawValue : Int) : Int :=
  acc + rawValue

/-- Modelled from the spec: the accumulator contract of section 6,
`SynchronizedMove() -> snapshot`: "atomically detach current state and reset".
The result is the snapshot paired with the reset working state. -/
def Accumulator.SynchronizedMove (acc : Int) : Int × Int :=
  (acc, 0)

/-- Modelled from the spec: the accumulator contract of section 6,
`Merge(otherSnapshot)`, addition for a running sum. -/
def Accumulator.Merge (acc otherSnapshot : Int) : Int :=
  acc + otherSnapshot

/-- Modelled from the spec: the collection controller of section 4.4, whose code
(`controller/pull`) is not among the sources. It holds the configured cache
period and export-kind policy, the time of the last sweep (`none` before the
first one), the mapping from each live series to its accumulator, and the
current checkpoint set. Times and durations are integers (nanoseconds). -/
structure Controller where
  cachePeriod : Int
  exportKind : ExportKind
  lastCollectionTime : Option Int
  accumulators : List (Series × Int)
  checkpoint : List Record
  deriving DecidableEq, Repr

/-- Modelled from the spec: the controller as constructed from its
configuration surface (section 6): no live series, no checkpoint, no collection
yet. -/
def New (cachePeriod : Int) (exportKind : ExportKind) : Controller :=
  { cachePeriod := cachePeriod
    exportKind := exportKind
    lastCollectionTime := none
    accumulators := []
    checkpoint := [] }

/-- Modelled from the spec: the update of the Series-to-Accumulator mapping by
one measurement; "entries are created lazily on first measurement" (section 3),
as a zero-valued accumulator that then receives the update. -/
def updateSeries : List (Series × Int) → Series → Int → List (Series × Int)
  | [], s, v => [(s, Accumulator.Update 0 v)]
  | (k, acc) :: rest, s, v =>
    if k = s then (k, Accumulator.Update acc v) :: rest
    else (k, acc) :: updateSeries rest s v

/-- Modelled from the spec: recording one measurement on a series (`counter.Add`
in `pull_test.go`); only the accumulator of that series changes. -/
def Controller.Add (c : Controller) (s : Series) (v : Int) : Controller :=
  { c with accumulators := updateSeries c.accumulators s v }

/-- Modelled from the spec: step 3 of `Collect` (section 4.4) under the policy
of section 4.3, at clock reading `now`. Cumulative: every checkpoint holds the
running total of its series and the accumulator is never reset. Delta: every
checkpoint holds the detached state of its accumulator, which is reset. In both
cases `lastCollectionTime = now` is recorded. -/
def Controller.sweep (c : Controller) (now : Int) : Controller :=
  match c.exportKind with
  | ExportKind.Cumulative =>
    { c with
      lastCollectionTime := some now
      checkpoint := c.accumulators.map
        (fun p => { series := p.1, value := Accumulator.Merge 0 p.2 }) }
  | ExportKind.Delta =>
    { c with
      lastCollectionTime := some now
      accumulators := c.accumulators.map
        (fun p => (p.1, (Accumulator.SynchronizedMove p.2).2))
      checkpoint := c.accumulators.map
        (fun p => { series := p.1, value := (Accumulator.SynchronizedMove p.2).1 }) }

/-- Modelled from the spec: `Collect` of section 4.4 when the clock reads `now`.
"If `cachePeriod == 0`, always perform a fresh sweep. Otherwise, compare
`now - lastCollectionTime` against `cachePeriod`. If less, return immediately
with no work performed." Before the first sweep there is no last collection
time and the sweep is performed. -/
def Controller.Collect (c : Controller) (now : Int) : Controller :=
  if c.cachePeriod = 0 then c.sweep now
  else
    match c.lastCollectionTime with
    | none => c.sweep now
    | some last => if now - last < c.cachePeriod then c else c.sweep now

/-- Modelled from the spec: `ForEach` of section 4.4, "iterates the current
checkpoint set, applying `visit` to each record"; a failing `visit` "aborts
iteration immediately". The visitor threads its own state `σ`. -/
def Controller.ForEach {ε σ : Type} (c : Controller)
    (visit : Record → σ → Except ε σ) (init : σ) : Except ε σ :=
  c.checkpoint.foldlM (fun acc r => visit r acc) init

/-- Modelled from the spec: the collecting visitor of `pull_test.go`
(`records.AddRecord`), which keeps every record it is shown and never fails. -/
def Output.AddRecord (r : Record) (out : List Record) : Except String (List Record) :=
  Except.ok (out ++ [r])

/-- The records `ForEach` produces with the collecting visitor, as the tests
read them (`records.Map()`); `none` if the traversal failed. -/
def Controller.records (c : Controller) : Option (List Record) :=
  match c.ForEach Output.AddRecord [] with
  | Except.ok out => some out
  | Except.error _ => none

/-- The value recorded for series `s` in a list of records, if any. -/
def valueOf (out : List Record) (s : Series) : Option Int :=
  (out.find? (fun r => r.series = s)).map (fun r => r.value)

/-- What client code and the exporter do to a controller: record a measurement,
or call `Collect` while the clock reads `now`. -/
inductive Event where
  | add (s : Series) (v : Int)
  | collect (now : Int)
  deriving DecidableEq, Repr

def Controller.step (c : Controller) : Event → Controller
  | Event.add s v => c.Add s v
  | Event.collect now => c.Collect now

def Controller.run (c : Controller) (es : List Event) : Controller :=
  es.foldl Controller.step c

/-- The sum of all measurements that the events record on series `s`. -/
def total (s : Series) : List Event → Int
  | [] => 0
  | Event.add k v :: es => (if k = s then v else 0) + total s es
  | Event.collect _ :: es => total s es

/-- Whether the events record at least one measurement on series `s`. -/
def recorded (s : Series) : List Event → Bool
  | [] => false
  | Event.add k _ :: es => decide (k = s) || recorded s es
  | Event.collect _ :: es => recorded s es

/-- Whether every measurement among the events is on series `s`. -/
def onlySeries (s : Series) : List Event → Bool
  | [] => true
  | Event.add k _ :: es => decide (k = s) && onlySeries s es
  | Event.collect _ :: es => onlySeries s es

end pull

/-! ## Theorems: views -/

namespace views

open instrumentation sdkinstrument regexp

section lemmas

variable {AK TP AC : Type}

theorem stringMismatch_eq_false (test value : String) :
    stringMismatch test value = false ↔ (test = "" ∨ test = value) := by
  unfold stringMismatch
  by_cases h1 : test = "" <;> by_cases h2 : test = value <;> simp [h1, h2]

theorem ikindMismatch_eq_false (test value : Int) :
    ikindMismatch test value = false ↔ (test = unsetInstrumentKind ∨ test = value) := by
  unfold ikindMismatch
  by_cases h1 : test = unsetInstrumentKind <;> by_cases h2 : test = value <;> simp [h1, h2]

theorem nkindMismatch_eq_false (test value : Int) :
    nkindMismatch test value = false ↔ (test = unsetNumberKind ∨ test = value) := by
  unfold nkindMismatch
  by_cases h1 : test = unsetNumberKind <;> by_cases h2 : test = value <;> simp [h1, h2]

theorem Matches_eq_true_iff (v : View AK TP AC) (lib : Library) (desc : Descriptor) :
    v.Matches lib desc = true ↔
      stringMismatch v.cfg.library.Name lib.Name = false ∧
      stringMismatch v.cfg.library.Version lib.Version = false ∧
      stringMismatch v.cfg.library.SchemaURL lib.SchemaURL = false ∧
      stringMismatch v.cfg.instrumentName desc.Name = false ∧
      ikindMismatch v.cfg.instrumentKind desc.Kind = false ∧
      nkindMismatch v.cfg.numberKind desc.NumberKind = false ∧
      regexpMismatch v.cfg.instrumentNameRegexp desc.Name = false := by
  unfold View.Matches
  simp only [Bool.and_eq_true, Bool.not_eq_true', and_assoc]

theorem registered_views (vs : List (View AK TP AC)) (r : Registry AK TP AC) :
    (vs.foldl Registry.Register r).views = r.views ++ vs := by
  induction vs generalizing r with
  | nil => simp
  | cons v vs ih => simp [ih, Registry.Register]

theorem find?_eq_some_iff_first {α : Type} (p : α → Bool) (l : List α) (a : α) :
    l.find? p = some a ↔
      ∃ (i : Nat) (h : i < l.length), l.get ⟨i, h⟩ = a ∧ p a = true ∧
        ∀ (j : Nat) (hj : j < i), p (l.get ⟨j, hj.trans h⟩) = false := by
  induction l with
  | nil => simp
  | cons x xs ih =>
    by_cases hx : p x = true
    · rw [List.find?_cons_of_pos _ hx]
      constructor
      · intro h
        cases h
        exact ⟨0, by simp, rfl, hx, fun j hj => absurd hj (Nat.not_lt_zero j)⟩
      · rintro ⟨i, h, hget, -, hmin⟩
        cases i with
        | zero => simpa using hget
        | succ i =>
          have := hmin 0 (Nat.succ_pos i)
          simp [hx] at this
    · rw [List.find?_cons_of_neg _ hx, ih]
      constructor
      · rintro ⟨i, h, hget, hp, hmin⟩
        refine ⟨i + 1, by simpa using h, by simpa using hget, hp, ?_⟩
        intro j hj
        cases j with
        | zero => simpa using hx
        | succ j => simpa using hmin j (Nat.lt_of_succ_lt_succ hj)
      · rintro ⟨i, h, hget, hp, hmin⟩
        cases i with
        | zero =>
          have : x = a := by simpa using hget
          exact absurd (this ▸ hp) hx
        | succ i =>
          refine ⟨i, by simpa using h, by simpa using hget, hp, ?_⟩
          intro j hj
          simpa using hmin (j + 1) (Nat.succ_lt_succ hj)

end lemmas

end views

namespace views

open instrumentation sdkinstrument regexp

section claims

variable {AK TP AC : Type}

/-- C1 (as the code behaves): the view `New(MatchInstrumentNameRegexp(re))` matches a
library and descriptor exactly when `re` does NOT match the instrument name, because
`regexpMismatch` reports a mismatch when the expression matches. In particular an
expression that matches the name `foo` makes the view reject the instrument `foo`. -/
theorem C1_regexp_view_matches_iff_no_match
    [Inhabited AK] [Inhabited TP] [Inhabited AC] :
    (∀ (re : Regexp) (lib : Library) (desc : Descriptor),
      (New [MatchInstrumentNameRegexp (some re)] : View AK TP AC).Matches lib desc
        = !re.MatchString desc.Name) ∧
    (New [MatchInstrumentNameRegexp (some { MatchString := fun s => s == "foo" })] :
      View AK TP AC).Matches
        { Name := "", Version := "", SchemaURL := "" }
        { Name := "foo", Kind := 0, NumberKind := 0 } = false := by
  have key : ∀ (re : Regexp) (lib : Library) (desc : Descriptor),
      (New [MatchInstrumentNameRegexp (some re)] : View AK TP AC).Matches lib desc
        = !re.MatchString desc.Name := by
    intro re lib desc
    simp [New, initialConfig, MatchInstrumentNameRegexp, View.Matches, stringMismatch,
      ikindMismatch, nkindMismatch, regexpMismatch, unsetInstrumentKind, unsetNumberKind]
  refine ⟨key, ?_⟩
  rw [key]
  simp

/-- C2: a view without a regexp matcher matches a library and descriptor if and only if
each of the library name, library version, library schema URL and instrument name of
the view is empty or equal to the corresponding field, and each of its instrument kind
and number kind is the unset sentinel or equal to the descriptor's. -/
theorem C2_matches_iff_set_fields_equal (v : View AK TP AC) (lib : Library)
    (desc : Descriptor) (hre : v.cfg.instrumentNameRegexp = none) :
    v.Matches lib desc = true ↔
      (v.cfg.library.Name = "" ∨ v.cfg.library.Name = lib.Name) ∧
      (v.cfg.library.Version = "" ∨ v.cfg.library.Version = lib.Version) ∧
      (v.cfg.library.SchemaURL = "" ∨ v.cfg.library.SchemaURL = lib.SchemaURL) ∧
      (v.cfg.instrumentName = "" ∨ v.cfg.instrumentName = desc.Name) ∧
      (v.cfg.instrumentKind = unsetInstrumentKind ∨ v.cfg.instrumentKind = desc.Kind) ∧
      (v.cfg.numberKind = unsetNumberKind ∨ v.cfg.numberKind = desc.NumberKind) := by
  rw [Matches_eq_true_iff, hre]
  simp only [stringMismatch_eq_false, ikindMismatch_eq_false, nkindMismatch_eq_false,
    regexpMismatch, and_true]

/-- Witness for C2: a view that constrains the instrument name and kind has no regexp
matcher and matches a descriptor with that name and kind, in any library. -/
theorem C2_matches_iff_set_fields_equal_witness :
    (New [MatchInstrumentName "counter.sum", MatchInstrumentKind 2] :
      View Unit Unit Unit).cfg.instrumentNameRegexp = none ∧
    (New [MatchInstrumentName "counter.sum", MatchInstrumentKind 2] :
      View Unit Unit Unit).Matches
        { Name := "nocache", Version := "1.0", SchemaURL := "" }
        { Name := "counter.sum", Kind := 2, NumberKind := 0 } = true :=
  ⟨rfl, (C2_matches_iff_set_fields_equal _ _ _ rfl).2
    ⟨Or.inl rfl, Or.inl rfl, Or.inl rfl, Or.inr rfl, Or.inr rfl, Or.inl rfl⟩⟩

/-- C3 (as the code behaves): `WithKeys` applied to an explicit empty, non-nil key list
leaves `Keys()` nil, because `append` of no elements to a nil slice returns the nil
slice; this holds on a fresh view and after an earlier `WithKeys` with nil or with an
empty list. -/
theorem C3_WithKeys_empty_keeps_nil [Inhabited AK] [Inhabited TP] [Inhabited AC] :
    (New [WithKeys (some [])] : View AK TP AC).Keys = none ∧
    (New [WithKeys none, WithKeys (some [])] : View AK TP AC).Keys = none ∧
    (New [WithKeys (some []), WithKeys (some [])] : View AK TP AC).Keys = none := by
  simp [New, initialConfig, WithKeys, View.Keys, goslice.append]

/-- C4: the view built with no options matches every library and every descriptor,
whatever the instrument kind and number kind. -/
theorem C4_New_no_options_matches_all [Inhabited AK] [Inhabited TP] [Inhabited AC]
    (lib : Library) (desc : Descriptor) :
    (New [] : View AK TP AC).Matches lib desc = true := by
  simp [New, initialConfig, View.Matches, stringMismatch, ikindMismatch, nkindMismatch,
    regexpMismatch]

/-- C5: for a view with `IsSingleInstrument() = true`, the concrete instrument name is
non-empty, every matched descriptor carries exactly that name, and so any two matched
descriptors carry the same name. -/
theorem C5_single_instrument_fixes_name (v : View AK TP AC)
    (hsingle : v.IsSingleInstrument = true) :
    v.cfg.instrumentName ≠ "" ∧
    (∀ (lib : Library) (desc : Descriptor),
      v.Matches lib desc = true → desc.Name = v.cfg.instrumentName) ∧
    (∀ (lib₁ lib₂ : Library) (desc₁ desc₂ : Descriptor),
      v.Matches lib₁ desc₁ = true → v.Matches lib₂ desc₂ = true →
        desc₁.Name = desc₂.Name) := by
  have hne : v.cfg.instrumentName ≠ "" := by
    simpa [View.IsSingleInstrument] using hsingle
  have hname : ∀ (lib : Library) (desc : Descriptor),
      v.Matches lib desc = true → desc.Name = v.cfg.instrumentName := by
    intro lib desc hm
    rw [Matches_eq_true_iff] at hm
    rcases (stringMismatch_eq_false _ _).1 hm.2.2.2.1 with h | h
    · exact absurd h hne
    · exact h.symm
  exact ⟨hne, hname, fun lib₁ lib₂ desc₁ desc₂ h₁ h₂ =>
    (hname lib₁ desc₁ h₁).trans (hname lib₂ desc₂ h₂).symm⟩

/-- Witness for C5: the view matching the concrete name `counter.sum` is a
single-instrument view, and a descriptor it matches is named `counter.sum`. -/
theorem C5_single_instrument_fixes_name_witness :
    (New [MatchInstrumentName "counter.sum"] : View Unit Unit Unit).IsSingleInstrument
      = true ∧
    ∀ (lib : Library) (desc : Descriptor),
      (New [MatchInstrumentName "counter.sum"] : View Unit Unit Unit).Matches lib desc
        = true → desc.Name = "counter.sum" :=
  ⟨by decide, (C5_single_instrument_fixes_name _ (by decide)).2.1⟩

/-- C10: for views registered in the order `vs`, `Lookup` returns a view exactly when it
is the view at the smallest index of `vs` whose `Matches` is true (later matching views
are ignored), and returns no view if and only if no registered view matches. -/
theorem C10_Lookup_first_match (vs : List (View AK TP AC)) (lib : Library)
    (desc : Descriptor) :
    (∀ v : View AK TP AC,
      (vs.foldl Registry.Register Registry.empty).Lookup lib desc = some v ↔
        ∃ (i : Nat) (h : i < vs.length), vs.get ⟨i, h⟩ = v ∧ v.Matches lib desc = true ∧
          ∀ (j : Nat) (hj : j < i), (vs.get ⟨j, hj.trans h⟩).Matches lib desc = false) ∧
    ((vs.foldl Registry.Register Registry.empty).Lookup lib desc = none ↔
      ∀ v ∈ vs, v.Matches lib desc = false) := by
  have hviews : (vs.foldl Registry.Register (Registry.empty : Registry AK TP AC)).views
      = vs := by
    rw [registered_views]
    simp [Registry.empty]
  unfold Registry.Lookup
  rw [hviews]
  refine ⟨fun v => find?_eq_some_iff_first _ vs v, ?_⟩
  simp [List.find?_eq_none]

/-- Witness for C10: of two registered views that both match, `Lookup` returns the one
registered first, here the one overriding the aggregation with `sum`. -/
theorem C10_Lookup_first_match_witness :
    (([New [WithAggregation "sum"], New [WithAggregation "histogram"]] :
        List (View String Unit Unit)).foldl Registry.Register Registry.empty).Lookup
      { Name := "nocache", Version := "", SchemaURL := "" }
      { Name := "counter.sum", Kind := 0, NumberKind := 0 }
      = some (New [WithAggregation "sum"]) :=
  ((C10_Lookup_first_match
      ([New [WithAggregation "sum"], New [WithAggregation "histogram"]] :
        List (View String Unit Unit))
      { Name := "nocache", Version := "", SchemaURL := "" }
      { Name := "counter.sum", Kind := 0, NumberKind := 0 }).1
    (New [WithAggregation "sum"])).2
    ⟨0, by decide, rfl, by decide,
      fun j hj => absurd hj (Nat.not_lt_zero j)⟩

end claims

end views

namespace simple

section claims

variable {SK HB : Type}

/-- C9: whatever the descriptor's name and number kind, every selector configuration
yields a running-sum aggregator for Counter, UpDownCounter, SumObserver and
UpDownSumObserver, a last-value aggregator for ValueObserver, and for ValueRecorder
the variant fixed by the configuration: inexpensive gives min/max/sum/count, sketch
gives ddsketch, exact gives array, histogram gives histogram. -/
theorem C9_AggregatorFor_by_kind (sel : Selector SK HB) (name : String)
    (numberKind : NumberKind) (config : SK) (boundaries : HB) :
    sel.AggregatorFor ⟨name, InstrumentKind.Counter, numberKind⟩ = Aggregator.sum ∧
    sel.AggregatorFor ⟨name, InstrumentKind.UpDownCounter, numberKind⟩ = Aggregator.sum ∧
    sel.AggregatorFor ⟨name, InstrumentKind.SumObserver, numberKind⟩ = Aggregator.sum ∧
    sel.AggregatorFor ⟨name, InstrumentKind.UpDownSumObserver, numberKind⟩
      = Aggregator.sum ∧
    sel.AggregatorFor ⟨name, InstrumentKind.ValueObserver, numberKind⟩
      = Aggregator.lastvalue ∧
    (NewWithInexpensiveDistribution : Selector SK HB).AggregatorFor
      ⟨name, InstrumentKind.ValueRecorder, numberKind⟩ = Aggregator.minmaxsumcount ∧
    (NewWithSketchDistribution config : Selector SK HB).AggregatorFor
      ⟨name, InstrumentKind.ValueRecorder, numberKind⟩ = Aggregator.ddsketch config ∧
    (NewWithExactDistribution : Selector SK HB).AggregatorFor
      ⟨name, InstrumentKind.ValueRecorder, numberKind⟩ = Aggregator.array ∧
    (NewWithHistogramDistribution boundaries : Selector SK HB).AggregatorFor
      ⟨name, InstrumentKind.ValueRecorder, numberKind⟩
        = Aggregator.histogram boundaries := by
  refine ⟨rfl, rfl, rfl, rfl, rfl, rfl, rfl, rfl, rfl⟩

end claims

end simple

/-! ## Theorems: pull controller -/

namespace pull

theorem foldlM_AddRecord (l init : List Record) :
    l.foldlM (fun acc r => Output.AddRecord r acc) init = Except.ok (init ++ l) := by
  induction l generalizing init with
  | nil => simp [pure, Except.pure]
  | cons r rs ih =>
    rw [List.foldlM_cons]
    show rs.foldlM (fun acc r => Output.AddRecord r acc) (init ++ [r]) = _
    rw [ih]
    simp

theorem records_eq_checkpoint (c : Controller) : c.records = some c.checkpoint := by
  unfold Controller.records Controller.ForEach
  rw [foldlM_AddRecord]
  simp

theorem total_append (s : Series) (es fs : List Event) :
    total s (es ++ fs) = total s es + total s fs := by
  induction es with
  | nil => simp [total]
  | cons e es ih =>
    cases e with
    | add k v => simp [total, ih, add_assoc]
    | collect now => simp [total, ih]

theorem recorded_append (s : Series) (es fs : List Event) :
    recorded s (es ++ fs) = (recorded s es || recorded s fs) := by
  induction es with
  | nil => simp [recorded]
  | cons e es ih =>
    cases e with
    | add k v => simp [recorded, ih, Bool.or_assoc]
    | collect now => simp [recorded, ih]

theorem onlySeries_append (s : Series) (es fs : List Event) :
    onlySeries s (es ++ fs) = (onlySeries s es && onlySeries s fs) := by
  induction es with
  | nil => simp [onlySeries]
  | cons e es ih =>
    cases e with
    | add k v => simp [onlySeries, ih, Bool.and_assoc]
    | collect now => simp [onlySeries, ih]

theorem total_eq_zero_of_not_recorded (s : Series) (es : List Event)
    (h : recorded s es = false) : total s es = 0 := by
  induction es with
  | nil => rfl
  | cons e es ih =>
    cases e with
    | add k v =>
      simp only [recorded, Bool.or_eq_false_iff, decide_eq_false_iff_not] at h
      simp [total, h.1, ih h.2]
    | collect now =>
      simp only [recorded] at h
      simp [total, ih h]

theorem run_append (c : Controller) (es fs : List Event) :
    c.run (es ++ fs) = (c.run es).run fs := by
  simp [Controller.run, List.foldl_append]

theorem run_snoc (c : Controller) (es : List Event) (e : Event) :
    c.run (es ++ [e]) = (c.run es).step e := by
  simp [Controller.run, List.foldl_append]

theorem sweep_cumulative (c : Controller) (now : Int)
    (h : c.exportKind = ExportKind.Cumulative) :
    c.sweep now =
      { c with
        lastCollectionTime := some now
        checkpoint := c.accumulators.map (fun p => { series := p.1, value := p.2 }) } := by
  unfold Controller.sweep
  rw [h]
  simp [Accumulator.Merge]

theorem Collect_cases (c : Controller) (now : Int) :
    c.Collect now = c ∨ c.Collect now = c.sweep now := by
  unfold Controller.Collect
  split
  · exact Or.inr rfl
  · split
    · exact Or.inr rfl
    · split
      · exact Or.inl rfl
      · exact Or.inr rfl

theorem Collect_frame_cumulative (c : Controller) (now : Int)
    (h : c.exportKind = ExportKind.Cumulative) :
    (c.Collect now).exportKind = ExportKind.Cumulative ∧
    (c.Collect now).cachePeriod = c.cachePeriod ∧
    (c.Collect now).accumulators = c.accumulators := by
  rcases Collect_cases c now with h' | h'
  · rw [h']
    exact ⟨h, rfl, rfl⟩
  · rw [h', sweep_cumulative c now h]
    exact ⟨h, rfl, rfl⟩

theorem step_frame_cumulative (c : Controller) (e : Event)
    (h : c.exportKind = ExportKind.Cumulative) :
    (c.step e).exportKind = ExportKind.Cumulative ∧
    (c.step e).cachePeriod = c.cachePeriod := by
  cases e with
  | add s v => exact ⟨h, rfl⟩
  | collect now =>
    exact ⟨(Collect_frame_cumulative c now h).1, (Collect_frame_cumulative c now h).2.1⟩

theorem run_frame_cumulative (c : Controller) (es : List Event)
    (h : c.exportKind = ExportKind.Cumulative) :
    (c.run es).exportKind = ExportKind.Cumulative ∧
    (c.run es).cachePeriod = c.cachePeriod := by
  induction es using List.reverseRecOn with
  | nil => exact ⟨h, rfl⟩
  | append_singleton es e ih =>
    rw [run_snoc]
    have := step_frame_cumulative (c.run es) e ih.1
    exact ⟨this.1, this.2.trans ih.2⟩

end pull

namespace pull

theorem lookup_updateSeries (acc : List (Series × Int)) (s s' : Series) (v : Int) :
    (updateSeries acc s v).lookup s' =
      if s' = s then some ((acc.lookup s).getD 0 + v) else acc.lookup s' := by
  induction acc with
  | nil =>
    by_cases h : s' = s
    · simp [updateSeries, Accumulator.Update, List.lookup, h]
    · have hne : (s' == s) = false := by simpa using h
      simp [updateSeries, Accumulator.Update, List.lookup, h, hne]
  | cons p rest ih =>
    obtain ⟨k, a⟩ := p
    by_cases hk : k = s
    · subst hk
      by_cases h : s' = k
      · simp [updateSeries, Accumulator.Update, List.lookup, h]
      · have hne : (s' == k) = false := by simpa using h
        simp [updateSeries, Accumulator.Update, List.lookup, h, hne]
    · by_cases h : s' = s
      · subst h
        have hne : (s' == k) = false := by
          simpa using fun h' : s' = k => hk h'.symm
        simp [updateSeries, hk, List.lookup, hne, ih]
      · by_cases h2 : s' = k
        · simp [updateSeries, hk, List.lookup, h2]
        · have hne : (s' == k) = false := by simpa using h2
          simp [updateSeries, hk, List.lookup, hne, ih, h]

theorem keys_updateSeries (acc : List (Series × Int)) (s : Series) (v : Int) :
    (updateSeries acc s v).map Prod.fst =
      if s ∈ acc.map Prod.fst then acc.map Prod.fst else acc.map Prod.fst ++ [s] := by
  induction acc with
  | nil => simp [updateSeries]
  | cons p rest ih =>
    obtain ⟨k, a⟩ := p
    by_cases hk : k = s
    · simp [updateSeries, hk]
    · have hk' : ¬ s = k := fun h => hk h.symm
      by_cases hmem : s ∈ rest.map Prod.fst
      · simp only [updateSeries, hk, if_false, List.map_cons, ih, hmem, if_true,
          List.mem_cons, or_true]
      · simp only [updateSeries, hk, if_false, List.map_cons, ih, hmem, List.mem_cons,
          hk', or_self, List.cons_append]

theorem nodup_keys_updateSeries (acc : List (Series × Int)) (s : Series) (v : Int)
    (h : (acc.map Prod.fst).Nodup) : ((updateSeries acc s v).map Prod.fst).Nodup := by
  rw [keys_updateSeries]
  split
  · exact h
  · rename_i hmem
    rw [List.nodup_append]
    refine ⟨h, List.nodup_singleton s, ?_⟩
    intro a ha hb
    rw [List.mem_singleton] at hb
    exact hmem (hb ▸ ha)

/-- Under the cumulative policy the live accumulators of a controller started by `New`
hold, for exactly the series with a recorded measurement, the sum of the measurements
recorded on it, each series once. -/
theorem accumulators_run_cumulative (D : Int) (es : List Event) :
    (((New D ExportKind.Cumulative).run es).accumulators.map Prod.fst).Nodup ∧
    ∀ s : Series, ((New D ExportKind.Cumulative).run es).accumulators.lookup s =
      if recorded s es = true then some (total s es) else none := by
  induction es using List.reverseRecOn with
  | nil =>
    refine ⟨by simp [Controller.run, New], fun s => ?_⟩
    simp [Controller.run, New, recorded]
  | append_singleton es e ih =>
    rw [run_snoc]
    have hk := (run_frame_cumulative (New D ExportKind.Cumulative) es rfl).1
    cases e with
    | add k v =>
      refine ⟨nodup_keys_updateSeries _ k v ih.1, fun s => ?_⟩
      show (updateSeries _ k v).lookup s = _
      rw [lookup_updateSeries, recorded_append, total_append, ih.2 s, ih.2 k]
      by_cases hs : s = k
      · subst hs
        by_cases hr : recorded s es = true
        · simp [hr, recorded, total]
        · have hr' : recorded s es = false := by simpa using hr
          simp [hr', recorded, total, total_eq_zero_of_not_recorded s es hr']
      · have hs' : ¬ k = s := fun h => hs h.symm
        simp [hs, hs', recorded, total]
    | collect now =>
      have hacc : (((New D ExportKind.Cumulative).run es).step
          (Event.collect now)).accumulators
          = ((New D ExportKind.Cumulative).run es).accumulators :=
        (Collect_frame_cumulative _ now hk).2.2
      rw [hacc]
      refine ⟨ih.1, fun s => ?_⟩
      rw [ih.2 s, recorded_append, total_append]
      simp [recorded, total]

theorem valueOf_checkpoint (acc : List (Series × Int)) (s : Series) :
    valueOf (acc.map (fun p => ({ series := p.1, value := p.2 } : Record))) s
      = acc.lookup s := by
  induction acc with
  | nil => simp [valueOf, List.lookup]
  | cons p rest ih =>
    obtain ⟨k, a⟩ := p
    by_cases h : s = k
    · subst h
      simp [valueOf, List.lookup]
    · have hne : (s == k) = false := by simpa using h
      have h' : ¬ k = s := fun e => h e.symm
      have ih' := ih
      simp only [valueOf] at ih'
      simp only [valueOf, List.map_cons, List.find?_cons, h', decide_False, List.lookup,
        hne]
      exact ih'

/-- With all measurements on one series, the accumulators of a cumulative controller
started by `New` are that series alone with the sum of its measurements, or empty
before the first measurement. -/
theorem accumulators_run_one_series (D : Int) (s : Series) (es : List Event)
    (h : onlySeries s es = true) :
    ((New D ExportKind.Cumulative).run es).accumulators =
      if recorded s es = true then [(s, total s es)] else [] := by
  induction es using List.reverseRecOn with
  | nil => simp [Controller.run, New, recorded]
  | append_singleton es e ih =>
    rw [onlySeries_append, Bool.and_eq_true] at h
    have ih := ih h.1
    rw [run_snoc]
    have hk := (run_frame_cumulative (New D ExportKind.Cumulative) es rfl).1
    cases e with
    | add k v =>
      have hks : k = s := by simpa [onlySeries] using h.2
      subst hks
      show updateSeries _ k v = _
      rw [ih, recorded_append, total_append]
      by_cases hr : recorded k es = true
      · simp [hr, recorded, total, updateSeries, Accumulator.Update]
      · have hr' : recorded k es = false := by simpa using hr
        simp [hr', recorded, total, updateSeries, Accumulator.Update,
          total_eq_zero_of_not_recorded k es hr']
    | collect now =>
      show (((New D ExportKind.Cumulative).run es).Collect now).accumulators = _
      rw [(Collect_frame_cumulative _ now hk).2.2, ih, recorded_append, total_append]
      simp [recorded, total]

theorem run_adds_frame (c : Controller) (ms : List (Series × Int)) :
    (c.run (ms.map (fun m => Event.add m.1 m.2))).cachePeriod = c.cachePeriod ∧
    (c.run (ms.map (fun m => Event.add m.1 m.2))).lastCollectionTime
      = c.lastCollectionTime ∧
    (c.run (ms.map (fun m => Event.add m.1 m.2))).checkpoint = c.checkpoint := by
  induction ms generalizing c with
  | nil => exact ⟨rfl, rfl, rfl⟩
  | cons m ms ih =>
    have := ih (c.Add m.1 m.2)
    simpa [Controller.run, Controller.step, Controller.Add] using this

end pull

namespace pull

theorem Collect_hit (c : Controller) (last now : Int) (hD : 0 < c.cachePeriod)
    (hlast : c.lastCollectionTime = some last) (hlt : now - last < c.cachePeriod) :
    c.Collect now = c := by
  unfold Controller.Collect
  rw [if_neg (ne_of_gt hD), hlast]
  simp [hlt]

theorem Collect_expired (c : Controller) (last now : Int) (hD : 0 < c.cachePeriod)
    (hlast : c.lastCollectionTime = some last) (hge : c.cachePeriod ≤ now - last) :
    c.Collect now = c.sweep now := by
  unfold Controller.Collect
  rw [if_neg (ne_of_gt hD), hlast]
  simp [not_lt.2 hge]

theorem Collect_no_cache (c : Controller) (now : Int) (h0 : c.cachePeriod = 0) :
    c.Collect now = c.sweep now := by
  unfold Controller.Collect
  rw [if_pos h0]

/-- C6 (amended): for every cache period `D > 0` and every controller state whose last
sweep was at clock time `t0`, after any sequence of measurements a `Collect` at a clock
time `t` with `t - t0 < D` is a cache hit: it changes nothing in the controller, the
checkpoint set is the one before the measurements, and `ForEach` produces the same
records as before them. -/
theorem C6_cache_hit_keeps_records (c : Controller) (D t0 t : Int)
    (ms : List (Series × Int)) (hD : 0 < D) (hper : c.cachePeriod = D)
    (hlast : c.lastCollectionTime = some t0) (ht : t - t0 < D) :
    (c.run (ms.map (fun m => Event.add m.1 m.2))).Collect t
      = c.run (ms.map (fun m => Event.add m.1 m.2)) ∧
    ((c.run (ms.map (fun m => Event.add m.1 m.2))).Collect t).checkpoint
      = c.checkpoint ∧
    ((c.run (ms.map (fun m => Event.add m.1 m.2))).Collect t).records = c.records := by
  obtain ⟨h1, h2, h3⟩ := run_adds_frame c ms
  have hhit : (c.run (ms.map (fun m => Event.add m.1 m.2))).Collect t
      = c.run (ms.map (fun m => Event.add m.1 m.2)) :=
    Collect_hit _ t0 t (by rw [h1, hper]; exact hD) (by rw [h2, hlast])
      (by rw [h1, hper]; exact ht)
  refine ⟨hhit, ?_, ?_⟩
  · rw [hhit, h3]
  · rw [records_eq_checkpoint, records_eq_checkpoint, hhit, h3]

/-- Witness for C6: the scenario of `TestPullWithCache` with a cache period of one
second: counter 10, `Collect` at time 0, add 10, `Collect` at the same time still
yields 10. -/
theorem C6_cache_hit_keeps_records_witness :
    ((New 1000000000 ExportKind.Cumulative).run
      [Event.add ⟨"counter.sum", "A=B"⟩ 10, Event.collect 0]).lastCollectionTime
        = some 0 ∧
    ((((New 1000000000 ExportKind.Cumulative).run
      [Event.add ⟨"counter.sum", "A=B"⟩ 10, Event.collect 0]).run
        ([(⟨"counter.sum", "A=B"⟩, 10)].map (fun m => Event.add m.1 m.2))).Collect 0).records
      = some [⟨⟨"counter.sum", "A=B"⟩, 10⟩] :=
  ⟨by decide,
    (C6_cache_hit_keeps_records
      ((New 1000000000 ExportKind.Cumulative).run
        [Event.add ⟨"counter.sum", "A=B"⟩ 10, Event.collect 0])
      1000000000 0 0 [(⟨"counter.sum", "A=B"⟩, 10)] (by decide) (by decide) (by decide)
      (by decide)).2.2.trans (by decide)⟩

/-- C6 as stated fails: with cache period 10, after `Collect` at time 0 (a sweep) and a
`Collect` at time `t0 = 9` (a cache hit), one more measurement and a `Collect` at time
`t = 15` give `t - t0 = 6 < 10`, yet that `Collect` sweeps (15 - 0 is not less than
10) and `ForEach` yields 20 where it yielded 10 before. -/
theorem C6_counterexample :
    (15 : Int) - 9 < 10 ∧
    ((New 10 ExportKind.Cumulative).run
      [Event.add ⟨"counter.sum", "A=B"⟩ 10, Event.collect 0, Event.collect 9]).records
      = some [⟨⟨"counter.sum", "A=B"⟩, 10⟩] ∧
    ((New 10 ExportKind.Cumulative).run
      [Event.add ⟨"counter.sum", "A=B"⟩ 10, Event.collect 0, Event.collect 9,
        Event.add ⟨"counter.sum", "A=B"⟩ 10, Event.collect 15]).records
      = some [⟨⟨"counter.sum", "A=B"⟩, 20⟩] := by
  decide

/-- C7: for every cache period `D > 0`, in every state a cumulative controller reaches
from `New`, a `Collect` at a clock time `now` with `now - lastCollectionTime >= D`
performs a fresh sweep: it records `now` as the last collection time, and `ForEach`
then yields one record per series that has a measurement, whose value is the sum of all
measurements recorded on that series so far. -/
theorem C7_expired_cache_sweeps (D : Int) (es : List Event) (last now : Int)
    (hD : 0 < D)
    (hlast : ((New D ExportKind.Cumulative).run es).lastCollectionTime = some last)
    (hexp : D ≤ now - last) :
    (((New D ExportKind.Cumulative).run es).Collect now).lastCollectionTime = some now ∧
    ∃ out : List Record,
      (((New D ExportKind.Cumulative).run es).Collect now).records = some out ∧
      (out.map Record.series).Nodup ∧
      ∀ s : Series,
        valueOf out s = if recorded s es = true then some (total s es) else none := by
  obtain ⟨hkind, hper⟩ := run_frame_cumulative (New D ExportKind.Cumulative) es rfl
  have hper' : ((New D ExportKind.Cumulative).run es).cachePeriod = D := hper
  have hsweep := Collect_expired ((New D ExportKind.Cumulative).run es) last now
    (by rw [hper']; exact hD) hlast (by rw [hper']; exact hexp)
  rw [hsweep, sweep_cumulative _ now hkind]
  obtain ⟨hnodup, hlook⟩ := accumulators_run_cumulative D es
  refine ⟨rfl, _, records_eq_checkpoint _, ?_, fun s => ?_⟩
  · simpa [List.map_map, Function.comp_def] using hnodup
  · show valueOf (((New D ExportKind.Cumulative).run es).accumulators.map _) s = _
    rw [valueOf_checkpoint, hlook s]

/-- Witness for C7: the scenario of `TestPullWithCache` with `D` one second: values 10
and 10, the second one recorded inside the cache window, and the clock advanced by
exactly one second; the fresh sweep yields 20. -/
theorem C7_expired_cache_sweeps_witness :
    ((New 1000000000 ExportKind.Cumulative).run
      [Event.add ⟨"counter.sum", "A=B"⟩ 10, Event.collect 0,
        Event.add ⟨"counter.sum", "A=B"⟩ 10, Event.collect 0]).lastCollectionTime
        = some 0 ∧
    ∃ out : List Record,
      (((New 1000000000 ExportKind.Cumulative).run
        [Event.add ⟨"counter.sum", "A=B"⟩ 10, Event.collect 0,
          Event.add ⟨"counter.sum", "A=B"⟩ 10, Event.collect 0]).Collect
            1000000000).records = some out ∧
      valueOf out ⟨"counter.sum", "A=B"⟩ = some 20 :=
  ⟨by decide,
    match C7_expired_cache_sweeps 1000000000
      [Event.add ⟨"counter.sum", "A=B"⟩ 10, Event.collect 0,
        Event.add ⟨"counter.sum", "A=B"⟩ 10, Event.collect 0]
      0 1000000000 (by decide) (by decide) (by decide) with
    | ⟨_, out, hout, _, hval⟩ =>
      ⟨out, hout, (hval ⟨"counter.sum", "A=B"⟩).trans (by decide)⟩⟩

/-- C8 (amended): with cache period 0 every `Collect` of a cumulative controller is a
fresh sweep whatever the clock reads, and when all additions are on one series the
`ForEach` output after a `Collect` that follows at least one addition is exactly one
record for that series, whose value is the sum of all additions made before that
`Collect`; before the first addition the output has no record. -/
theorem C8_no_cache_collect_yields_sum (s : Series) (es : List Event) (now : Int)
    (hs : onlySeries s es = true) :
    ((New 0 ExportKind.Cumulative).run es).Collect now
      = ((New 0 ExportKind.Cumulative).run es).sweep now ∧
    (((New 0 ExportKind.Cumulative).run es).Collect now).records
      = some (if recorded s es = true then [⟨s, total s es⟩] else []) := by
  obtain ⟨hkind, hper⟩ := run_frame_cumulative (New 0 ExportKind.Cumulative) es rfl
  have hsweep := Collect_no_cache ((New 0 ExportKind.Cumulative).run es) now hper
  refine ⟨hsweep, ?_⟩
  rw [records_eq_checkpoint, hsweep, sweep_cumulative _ now hkind]
  show some (((New 0 ExportKind.Cumulative).run es).accumulators.map _) = _
  rw [accumulators_run_one_series 0 s es hs]
  split <;> simp

/-- Witness for C8: the scenario of `TestPullNoCache`: add 10, `Collect`, add 10, and
the next `Collect` yields the single record with value 20. -/
theorem C8_no_cache_collect_yields_sum_witness :
    onlySeries ⟨"counter.sum", "A=B"⟩
      [Event.add ⟨"counter.sum", "A=B"⟩ 10, Event.collect 0,
        Event.add ⟨"counter.sum", "A=B"⟩ 10] = true ∧
    (((New 0 ExportKind.Cumulative).run
      [Event.add ⟨"counter.sum", "A=B"⟩ 10, Event.collect 0,
        Event.add ⟨"counter.sum", "A=B"⟩ 10]).Collect 0).records
      = some [⟨⟨"counter.sum", "A=B"⟩, 20⟩] :=
  ⟨by decide,
    (C8_no_cache_collect_yields_sum ⟨"counter.sum", "A=B"⟩
      [Event.add ⟨"counter.sum", "A=B"⟩ 10, Event.collect 0,
        Event.add ⟨"counter.sum", "A=B"⟩ 10] 0 (by decide)).2.trans (by decide)⟩

/-- C8 as stated fails: with cache period 0, a `Collect` made before any addition on the
series leaves the `ForEach` output empty, so it holds no record for the series, while
the sum of the additions made before that `Collect` is 0. -/
theorem C8_counterexample :
    ((New 0 ExportKind.Cumulative).run [Event.collect 0]).records = some [] ∧
    valueOf [] ⟨"counter.sum", "A=B"⟩ = none ∧
    total ⟨"counter.sum", "A=B"⟩ [Event.collect 0] = 0 := by
  decide

end pull

/-! ## Theorems: option lists -/

namespace views

open instrumentation sdkinstrument regexp

section optionLemmas

variable {AK TP AC : Type}

theorem New_snoc [Inhabited AK] [Inhabited TP] [Inhabited AC]
    (opts : List (ViewOption AK TP AC)) (o : ViewOption AK TP AC) :
    New (opts ++ [o]) = { cfg := o (New opts).cfg } := by
  simp [New, List.foldl_append]

theorem New_snoc_two [Inhabited AK] [Inhabited TP] [Inhabited AC]
    (opts : List (ViewOption AK TP AC)) (a b : ViewOption AK TP AC) :
    New (opts ++ [a, b]) = { cfg := b (a (New opts).cfg) } := by
  simp [New, List.foldl_append]

theorem WithKeys_matchers (keys : Option (List String)) (cfg : Config AK TP AC) :
    (WithKeys keys cfg).instrumentName = cfg.instrumentName ∧
    (WithKeys keys cfg).instrumentNameRegexp = cfg.instrumentNameRegexp ∧
    (WithKeys keys cfg).instrumentKind = cfg.instrumentKind ∧
    (WithKeys keys cfg).numberKind = cfg.numberKind ∧
    (WithKeys keys cfg).library = cfg.library := by
  unfold WithKeys
  split <;> exact ⟨rfl, rfl, rfl, rfl, rfl⟩

theorem WithKeys_properties (keys : Option (List String)) (cfg : Config AK TP AC) :
    (WithKeys keys cfg).name = cfg.name ∧
    (WithKeys keys cfg).description = cfg.description ∧
    (WithKeys keys cfg).aggregation = cfg.aggregation ∧
    (WithKeys keys cfg).temporality = cfg.temporality ∧
    (WithKeys keys cfg).acfg = cfg.acfg := by
  unfold WithKeys
  split <;> exact ⟨rfl, rfl, rfl, rfl, rfl⟩

theorem foldl_instrumentName_untouched (calls : List (OptionCall AK TP AC))
    (cfg : Config AK TP AC) (h : ∀ c ∈ calls, c.field ≠ Field.instrumentName) :
    ((options calls).foldl (fun cfg opt => opt cfg) cfg).instrumentName
      = cfg.instrumentName := by
  induction calls generalizing cfg with
  | nil => rfl
  | cons c cs ih =>
    have hc := h c (List.mem_cons_self c cs)
    have hcs : ∀ d ∈ cs, d.field ≠ Field.instrumentName :=
      fun d hd => h d (List.mem_cons_of_mem c hd)
    show ((options cs).foldl (fun cfg opt => opt cfg) (c.option cfg)).instrumentName = _
    rw [ih _ hcs]
    cases c with
    | matchInstrumentName name => exact absurd rfl hc
    | withKeys keys => exact (WithKeys_matchers keys cfg).1
    | _ => rfl

theorem foldl_instrumentNameRegexp_untouched (calls : List (OptionCall AK TP AC))
    (cfg : Config AK TP AC) (h : ∀ c ∈ calls, c.field ≠ Field.instrumentNameRegexp) :
    ((options calls).foldl (fun cfg opt => opt cfg) cfg).instrumentNameRegexp
      = cfg.instrumentNameRegexp := by
  induction calls generalizing cfg with
  | nil => rfl
  | cons c cs ih =>
    have hc := h c (List.mem_cons_self c cs)
    have hcs : ∀ d ∈ cs, d.field ≠ Field.instrumentNameRegexp :=
      fun d hd => h d (List.mem_cons_of_mem c hd)
    show ((options cs).foldl (fun cfg opt => opt cfg) (c.option cfg)).instrumentNameRegexp
      = _
    rw [ih _ hcs]
    cases c with
    | matchInstrumentNameRegexp re => exact absurd rfl hc
    | withKeys keys => exact (WithKeys_matchers keys cfg).2.1
    | _ => rfl

theorem WithKeys_set_instrumentKind (keys : Option (List String))
    (cfg : Config AK TP AC) (j : Int) :
    WithKeys keys { cfg with instrumentKind := j }
      = { WithKeys keys cfg with instrumentKind := j } := by
  unfold WithKeys
  split <;> rfl

theorem WithKeys_set_numberKind (keys : Option (List String))
    (cfg : Config AK TP AC) (j : Int) :
    WithKeys keys { cfg with numberKind := j }
      = { WithKeys keys cfg with numberKind := j } := by
  unfold WithKeys
  split <;> rfl

theorem WithKeys_set_instrumentName (keys : Option (List String))
    (cfg : Config AK TP AC) (n : String) :
    WithKeys keys { cfg with instrumentName := n }
      = { WithKeys keys cfg with instrumentName := n } := by
  unfold WithKeys
  split <;> rfl

theorem foldl_without_instrumentKind (calls : List (OptionCall AK TP AC))
    (cfg : Config AK TP AC) (j : Int) :
    { (options calls).foldl (fun cfg opt => opt cfg) cfg with instrumentKind := j }
      = (options (without Field.instrumentKind calls)).foldl (fun cfg opt => opt cfg)
          { cfg with instrumentKind := j } := by
  induction calls generalizing cfg with
  | nil => rfl
  | cons c cs ih =>
    show { (options cs).foldl (fun cfg opt => opt cfg) (c.option cfg)
      with instrumentKind := j } = _
    rw [ih]
    cases c with
    | matchInstrumentKind k => rfl
    | withKeys keys =>
      show _ = (options (without Field.instrumentKind cs)).foldl (fun cfg opt => opt cfg)
        (WithKeys keys { cfg with instrumentKind := j })
      rw [WithKeys_set_instrumentKind]
      rfl
    | _ => rfl

theorem foldl_without_numberKind (calls : List (OptionCall AK TP AC))
    (cfg : Config AK TP AC) (j : Int) :
    { (options calls).foldl (fun cfg opt => opt cfg) cfg with numberKind := j }
      = (options (without Field.numberKind calls)).foldl (fun cfg opt => opt cfg)
          { cfg with numberKind := j } := by
  induction calls generalizing cfg with
  | nil => rfl
  | cons c cs ih =>
    show { (options cs).foldl (fun cfg opt => opt cfg) (c.option cfg)
      with numberKind := j } = _
    rw [ih]
    cases c with
    | matchNumberKind k => rfl
    | withKeys keys =>
      show _ = (options (without Field.numberKind cs)).foldl (fun cfg opt => opt cfg)
        (WithKeys keys { cfg with numberKind := j })
      rw [WithKeys_set_numberKind]
      rfl
    | _ => rfl

theorem foldl_without_instrumentName (calls : List (OptionCall AK TP AC))
    (cfg : Config AK TP AC) (n : String) :
    { (options calls).foldl (fun cfg opt => opt cfg) cfg with instrumentName := n }
      = (options (without Field.instrumentName calls)).foldl (fun cfg opt => opt cfg)
          { cfg with instrumentName := n } := by
  induction calls generalizing cfg with
  | nil => rfl
  | cons c cs ih =>
    show { (options cs).foldl (fun cfg opt => opt cfg) (c.option cfg)
      with instrumentName := n } = _
    rw [ih]
    cases c with
    | matchInstrumentName k => rfl
    | withKeys keys =>
      show _ = (options (without Field.instrumentName cs)).foldl (fun cfg opt => opt cfg)
        (WithKeys keys { cfg with instrumentName := n })
      rw [WithKeys_set_instrumentName]
      rfl
    | _ => rfl

end optionLemmas

end views

namespace views

open instrumentation sdkinstrument regexp

section optionLemmas

variable {AK TP AC : Type}

theorem option_comm (a b : OptionCall AK TP AC) (cfg : Config AK TP AC)
    (h : a.field ≠ b.field) :
    b.option (a.option cfg) = a.option (b.option cfg) := by
  cases a <;> cases b <;>
    first
      | exact absurd rfl h
      | rfl
      | (simp only [OptionCall.option, WithKeys]; split <;> rfl)

theorem option_overwrite (a b : OptionCall AK TP AC) (cfg : Config AK TP AC)
    (h : a.field = b.field) (hk : a.field ≠ Field.keys) :
    b.option (a.option cfg) = b.option cfg := by
  cases a <;> cases b <;>
    first
      | rfl
      | exact absurd rfl hk
      | (simp [OptionCall.field] at h)

theorem Matches_congr (v w : View AK TP AC) (lib : Library) (desc : Descriptor)
    (h1 : w.cfg.instrumentName = v.cfg.instrumentName)
    (h2 : w.cfg.instrumentNameRegexp = v.cfg.instrumentNameRegexp)
    (h3 : w.cfg.instrumentKind = v.cfg.instrumentKind)
    (h4 : w.cfg.numberKind = v.cfg.numberKind)
    (h5 : w.cfg.library = v.cfg.library) :
    w.Matches lib desc = v.Matches lib desc := by
  unfold View.Matches
  rw [h1, h2, h3, h4, h5]

end optionLemmas

section optionClaims

variable {AK TP AC : Type}

/-- C11 (as the code behaves): `New` applies the options and checks nothing, so a view
that is given a display name and no instrument-name matcher has `HasName() = true` and
`IsSingleInstrument() = false`: for every name `x`, `New(WithName(x))` is not a
single-instrument view and has a name exactly when `x` is non-empty, here at
`x = "renamed"`; the same holds after `MatchInstrumentName("")`. -/
theorem C11_New_allows_name_without_single_instrument
    [Inhabited AK] [Inhabited TP] [Inhabited AC] :
    ((New [WithName "renamed"] : View AK TP AC).HasName = true ∧
      (New [WithName "renamed"] : View AK TP AC).IsSingleInstrument = false) ∧
    (∀ x : String,
      (New [WithName x] : View AK TP AC).HasName = (x != "") ∧
      (New [WithName x] : View AK TP AC).IsSingleInstrument = false) ∧
    (∀ x : String,
      (New [MatchInstrumentName "", WithName x] : View AK TP AC).HasName = (x != "") ∧
      (New [MatchInstrumentName "", WithName x] : View AK TP AC).IsSingleInstrument
        = false) := by
  refine ⟨⟨?_, ?_⟩, fun x => ⟨?_, ?_⟩, fun x => ⟨?_, ?_⟩⟩ <;>
    simp [New, initialConfig, WithName, MatchInstrumentName, View.HasName,
      View.IsSingleInstrument]

/-- C12: appending `MatchInstrumentKind(-1)`, `MatchNumberKind(-1)` or
`MatchInstrumentName("")` to any option list gives the very view built from the list
with every option on that field removed, so the two match the same libraries and
descriptors; with the instrument kind at its sentinel whether the view matches a
descriptor does not depend on its instrument kind, and likewise for the number kind. -/
theorem C12_sentinel_is_unset [Inhabited AK] [Inhabited TP] [Inhabited AC]
    (calls : List (OptionCall AK TP AC)) (lib : Library) (desc : Descriptor) :
    (New (options calls ++ [MatchInstrumentKind (-1)])
      = New (options (without Field.instrumentKind calls)) ∧
     New (options calls ++ [MatchNumberKind (-1)])
      = New (options (without Field.numberKind calls)) ∧
     New (options calls ++ [MatchInstrumentName ""])
      = New (options (without Field.instrumentName calls))) ∧
    ((New (options calls ++ [MatchInstrumentKind (-1)])).Matches lib desc
      = (New (options (without Field.instrumentKind calls))).Matches lib desc ∧
     (New (options calls ++ [MatchNumberKind (-1)])).Matches lib desc
      = (New (options (without Field.numberKind calls))).Matches lib desc ∧
     (New (options calls ++ [MatchInstrumentName ""])).Matches lib desc
      = (New (options (without Field.instrumentName calls))).Matches lib desc) ∧
    ((∀ k : Int, (New (options calls ++ [MatchInstrumentKind (-1)])).Matches lib
        { desc with Kind := k }
      = (New (options calls ++ [MatchInstrumentKind (-1)])).Matches lib desc) ∧
     (∀ k : Int, (New (options calls ++ [MatchNumberKind (-1)])).Matches lib
        { desc with NumberKind := k }
      = (New (options calls ++ [MatchNumberKind (-1)])).Matches lib desc)) := by
  have hk : New (options calls ++ [MatchInstrumentKind (-1)])
      = New (options (without Field.instrumentKind calls)) := by
    rw [New_snoc]
    exact congrArg View.mk (foldl_without_instrumentKind calls initialConfig (-1))
  have hn : New (options calls ++ [MatchNumberKind (-1)])
      = New (options (without Field.numberKind calls)) := by
    rw [New_snoc]
    exact congrArg View.mk (foldl_without_numberKind calls initialConfig (-1))
  have hs : New (options calls ++ [MatchInstrumentName ""])
      = New (options (without Field.instrumentName calls)) := by
    rw [New_snoc]
    exact congrArg View.mk (foldl_without_instrumentName calls initialConfig "")
  refine ⟨⟨hk, hn, hs⟩, ⟨by rw [hk], by rw [hn], by rw [hs]⟩, ?_, ?_⟩
  · intro k
    rw [New_snoc]
    simp [View.Matches, MatchInstrumentKind, ikindMismatch, unsetInstrumentKind]
  · intro k
    rw [New_snoc]
    simp [View.Matches, MatchNumberKind, nkindMismatch, unsetNumberKind]

end optionClaims

end views

namespace views

open instrumentation sdkinstrument regexp

section optionClaims

variable {AK TP AC : Type}

/-- C13 (amended): the exact name matcher and the regexp matcher are independent fields
that `New` does not make exclusive; a view built from options that use at most one of
`MatchInstrumentName` and `MatchInstrumentNameRegexp` has at most one of the two
matchers set. -/
theorem C13_one_name_matcher_when_one_kind_used
    [Inhabited AK] [Inhabited TP] [Inhabited AC] (calls : List (OptionCall AK TP AC))
    (h : (∀ c ∈ calls, c.field ≠ Field.instrumentName) ∨
      (∀ c ∈ calls, c.field ≠ Field.instrumentNameRegexp)) :
    (New (options calls)).cfg.instrumentName = "" ∨
      (New (options calls)).cfg.instrumentNameRegexp = none := by
  rcases h with h | h
  · exact Or.inl (foldl_instrumentName_untouched calls initialConfig h)
  · exact Or.inr (foldl_instrumentNameRegexp_untouched calls initialConfig h)

/-- Witness for C13: options that match by regular expression only leave the exact
instrument name unset. -/
theorem C13_one_name_matcher_when_one_kind_used_witness :
    (New (options [(OptionCall.matchInstrumentNameRegexp
        (some { MatchString := fun s => s == "foo" }) : OptionCall Unit Unit Unit),
      OptionCall.withName "renamed"])).cfg.instrumentName = "" ∨
    (New (options [(OptionCall.matchInstrumentNameRegexp
        (some { MatchString := fun s => s == "foo" }) : OptionCall Unit Unit Unit),
      OptionCall.withName "renamed"])).cfg.instrumentNameRegexp = none :=
  C13_one_name_matcher_when_one_kind_used _
    (Or.inl (by
      intro c hc
      simp only [List.mem_cons, List.mem_singleton, List.not_mem_nil, or_false] at hc
      rcases hc with hc | hc <;> subst hc <;> simp [OptionCall.field]))

/-- C13 as stated fails: `New(MatchInstrumentName("foo"), MatchInstrumentNameRegexp(re))`
has a non-empty instrument name and a non-nil regular expression at once. -/
theorem C13_counterexample :
    (New [MatchInstrumentName "foo",
      MatchInstrumentNameRegexp (some { MatchString := fun s => s == "foo" })] :
        View Unit Unit Unit).cfg.instrumentName ≠ "" ∧
    (New [MatchInstrumentName "foo",
      MatchInstrumentNameRegexp (some { MatchString := fun s => s == "foo" })] :
        View Unit Unit Unit).cfg.instrumentNameRegexp.isSome = true := by
  constructor
  · decide
  · rfl

/-- C14: after any option list, each scalar property getter returns the argument of the
setter applied last: `WithName`/`Name`, `WithDescription`/`Description`,
`WithAggregation`/`Aggregation`, `WithTemporality`/`Temporality` and
`WithAggregatorConfig`/`AggregatorConfig`. -/
theorem C14_getter_returns_last_setter [Inhabited AK] [Inhabited TP] [Inhabited AC]
    (opts : List (ViewOption AK TP AC)) (x desc : String) (kind : AK) (tempo : TP)
    (acfg : AC) :
    (New (opts ++ [WithName x])).Name = x ∧
    (New (opts ++ [WithDescription desc])).Description = desc ∧
    (New (opts ++ [WithAggregation kind])).Aggregation = kind ∧
    (New (opts ++ [WithTemporality tempo])).Temporality = tempo ∧
    (New (opts ++ [WithAggregatorConfig acfg])).AggregatorConfig = acfg := by
  simp only [New_snoc]
  exact ⟨rfl, rfl, rfl, rfl, rfl⟩

/-- C15: appending a property option (`WithKeys`, `WithName`, `WithDescription`,
`WithAggregation`, `WithTemporality`, `WithAggregatorConfig`, with any argument) to any
option list leaves `Matches` unchanged for every library and descriptor, and appending a
matcher option leaves `Name`, `Keys`, `Description`, `Aggregation`, `Temporality` and
`AggregatorConfig` unchanged. -/
theorem C15_properties_and_matchers_are_separate
    [Inhabited AK] [Inhabited TP] [Inhabited AC]
    (opts : List (ViewOption AK TP AC)) (c : OptionCall AK TP AC) :
    (c.field.isMatcher = false →
      ∀ (lib : Library) (desc : Descriptor),
        (New (opts ++ [c.option])).Matches lib desc = (New opts).Matches lib desc) ∧
    (c.field.isMatcher = true →
      (New (opts ++ [c.option])).Name = (New opts).Name ∧
      (New (opts ++ [c.option])).Keys = (New opts).Keys ∧
      (New (opts ++ [c.option])).Description = (New opts).Description ∧
      (New (opts ++ [c.option])).Aggregation = (New opts).Aggregation ∧
      (New (opts ++ [c.option])).Temporality = (New opts).Temporality ∧
      (New (opts ++ [c.option])).AggregatorConfig = (New opts).AggregatorConfig) := by
  rw [New_snoc]
  constructor
  · intro hp lib desc
    cases c with
    | withKeys keys =>
      obtain ⟨h1, h2, h3, h4, h5⟩ := WithKeys_matchers keys (New opts).cfg
      exact Matches_congr _ _ lib desc h1 h2 h3 h4 h5
    | withName _ => rfl
    | withDescription _ => rfl
    | withAggregation _ => rfl
    | withTemporality _ => rfl
    | withAggregatorConfig _ => rfl
    | _ => simp [OptionCall.field, Field.isMatcher] at hp
  · intro hm
    cases c with
    | matchInstrumentName _ => exact ⟨rfl, rfl, rfl, rfl, rfl, rfl⟩
    | matchInstrumentNameRegexp _ => exact ⟨rfl, rfl, rfl, rfl, rfl, rfl⟩
    | matchInstrumentKind _ => exact ⟨rfl, rfl, rfl, rfl, rfl, rfl⟩
    | matchNumberKind _ => exact ⟨rfl, rfl, rfl, rfl, rfl, rfl⟩
    | matchInstrumentationLibrary _ => exact ⟨rfl, rfl, rfl, rfl, rfl, rfl⟩
    | _ => simp [OptionCall.field, Field.isMatcher] at hm

/-- Witness for C15: appending `WithKeys("A")` to a view that matches `counter.sum`
still matches that instrument, and appending `MatchInstrumentKind(2)` to a view named
`renamed` keeps the name. -/
theorem C15_properties_and_matchers_are_separate_witness :
    (New ([MatchInstrumentName "counter.sum"] ++
        [(OptionCall.withKeys (some ["A"]) : OptionCall Unit Unit Unit).option])).Matches
      { Name := "", Version := "", SchemaURL := "" }
      { Name := "counter.sum", Kind := 0, NumberKind := 0 } = true ∧
    (New ([WithName "renamed"] ++
        [(OptionCall.matchInstrumentKind 2 : OptionCall Unit Unit Unit).option])).Name
      = "renamed" :=
  ⟨((C15_properties_and_matchers_are_separate [MatchInstrumentName "counter.sum"]
      (OptionCall.withKeys (some ["A"]) : OptionCall Unit Unit Unit)).1 rfl _ _).trans
        (by decide),
    ((C15_properties_and_matchers_are_separate [WithName "renamed"]
      (OptionCall.matchInstrumentKind 2 : OptionCall Unit Unit Unit)).2 rfl).1.trans
        (by decide)⟩

end optionClaims

end views

namespace views

open instrumentation sdkinstrument regexp

section optionClaims

variable {AK TP AC : Type}

/-- C16: when an option list leaves a matcher field unset (empty instrument name, nil
regexp, sentinel instrument kind, sentinel number kind, or empty library), appending a
matcher option for that field can only narrow the view: every library and descriptor
matched by the extended view is matched by the original one. -/
theorem C16_added_matcher_narrows [Inhabited AK] [Inhabited TP] [Inhabited AC]
    (opts : List (ViewOption AK TP AC)) (lib : Library) (desc : Descriptor) :
    (∀ name : String, (New opts).cfg.instrumentName = "" →
      (New (opts ++ [MatchInstrumentName name])).Matches lib desc = true →
        (New opts).Matches lib desc = true) ∧
    (∀ re : Option Regexp, (New opts).cfg.instrumentNameRegexp = none →
      (New (opts ++ [MatchInstrumentNameRegexp re])).Matches lib desc = true →
        (New opts).Matches lib desc = true) ∧
    (∀ k : Int, (New opts).cfg.instrumentKind = unsetInstrumentKind →
      (New (opts ++ [MatchInstrumentKind k])).Matches lib desc = true →
        (New opts).Matches lib desc = true) ∧
    (∀ k : Int, (New opts).cfg.numberKind = unsetNumberKind →
      (New (opts ++ [MatchNumberKind k])).Matches lib desc = true →
        (New opts).Matches lib desc = true) ∧
    (∀ l : Library,
      (New opts).cfg.library = { Name := "", Version := "", SchemaURL := "" } →
      (New (opts ++ [MatchInstrumentationLibrary l])).Matches lib desc = true →
        (New opts).Matches lib desc = true) := by
  simp only [New_snoc, Matches_eq_true_iff]
  refine ⟨?_, ?_, ?_, ?_, ?_⟩
  · intro name h hm
    exact ⟨hm.1, hm.2.1, hm.2.2.1, (stringMismatch_eq_false _ _).2 (Or.inl h),
      hm.2.2.2.2.1, hm.2.2.2.2.2.1, hm.2.2.2.2.2.2⟩
  · intro re h hm
    refine ⟨hm.1, hm.2.1, hm.2.2.1, hm.2.2.2.1, hm.2.2.2.2.1, hm.2.2.2.2.2.1, ?_⟩
    rw [h]
    rfl
  · intro k h hm
    exact ⟨hm.1, hm.2.1, hm.2.2.1, hm.2.2.2.1, (ikindMismatch_eq_false _ _).2 (Or.inl h),
      hm.2.2.2.2.2.1, hm.2.2.2.2.2.2⟩
  · intro k h hm
    exact ⟨hm.1, hm.2.1, hm.2.2.1, hm.2.2.2.1, hm.2.2.2.2.1,
      (nkindMismatch_eq_false _ _).2 (Or.inl h), hm.2.2.2.2.2.2⟩
  · intro l h hm
    rw [h]
    exact ⟨(stringMismatch_eq_false _ _).2 (Or.inl rfl),
      (stringMismatch_eq_false _ _).2 (Or.inl rfl),
      (stringMismatch_eq_false _ _).2 (Or.inl rfl),
      hm.2.2.2.1, hm.2.2.2.2.1, hm.2.2.2.2.2.1, hm.2.2.2.2.2.2⟩

/-- Witness for C16: a view with only a display name leaves the instrument kind unset;
the view extended with `MatchInstrumentKind(2)` matches a descriptor of kind 2, and so
does the original view. -/
theorem C16_added_matcher_narrows_witness :
    (New [WithName "renamed"] : View Unit Unit Unit).cfg.instrumentKind
      = unsetInstrumentKind ∧
    (New ([WithName "renamed"] ++ [MatchInstrumentKind 2]) : View Unit Unit Unit).Matches
      { Name := "", Version := "", SchemaURL := "" }
      { Name := "counter.sum", Kind := 2, NumberKind := 0 } = true ∧
    (New [WithName "renamed"] : View Unit Unit Unit).Matches
      { Name := "", Version := "", SchemaURL := "" }
      { Name := "counter.sum", Kind := 2, NumberKind := 0 } = true :=
  ⟨by decide, by decide,
    (C16_added_matcher_narrows [WithName "renamed"]
      { Name := "", Version := "", SchemaURL := "" }
      { Name := "counter.sum", Kind := 2, NumberKind := 0 }).2.2.1 2 (by decide)
        (by decide)⟩

/-- C17: for non-empty key lists `k1` and `k2`, `WithKeys(k1...)` followed by
`WithKeys(k2...)` gives `Keys() = k1 ++ k2`, duplicates kept, also after earlier options
(then appended to the keys accumulated so far); a later `WithKeys` with a nil argument
list resets `Keys()` to nil whatever was accumulated. -/
theorem C17_WithKeys_accumulates [Inhabited AK] [Inhabited TP] [Inhabited AC]
    (opts : List (ViewOption AK TP AC)) (k1 k2 : List String)
    (h1 : k1 ≠ []) (h2 : k2 ≠ []) :
    (New [WithKeys (some k1), WithKeys (some k2)] : View AK TP AC).Keys
      = some (k1 ++ k2) ∧
    (New (opts ++ [WithKeys (some k1), WithKeys (some k2)])).Keys
      = some ((New opts).Keys.getD [] ++ k1 ++ k2) ∧
    (New (opts ++ [WithKeys (some k1), WithKeys (some k2), WithKeys none])).Keys
      = none ∧
    (New (opts ++ [WithKeys none])).Keys = none := by
  cases k1 with
  | nil => exact absurd rfl h1
  | cons a as =>
    cases k2 with
    | nil => exact absurd rfl h2
    | cons b bs =>
      refine ⟨?_, ?_, ?_, ?_⟩
      · simp [New, initialConfig, WithKeys, View.Keys, goslice.append]
      · rw [New_snoc_two]
        simp [WithKeys, View.Keys, goslice.append]
      · simp [New, List.foldl_append, WithKeys, View.Keys]
      · rw [New_snoc]
        simp [WithKeys, View.Keys]

/-- Witness for C17: `WithKeys("A")` then `WithKeys("A", "B")` gives the keys
`A, A, B`. -/
theorem C17_WithKeys_accumulates_witness :
    (New [WithKeys (some ["A"]), WithKeys (some ["A", "B"])] : View Unit Unit Unit).Keys
      = some (["A"] ++ ["A", "B"]) :=
  (C17_WithKeys_accumulates [] ["A"] ["A", "B"] (by decide) (by decide)).1

/-- C18: two options that assign different fields of `Config` commute: appended in
either order to any option list they build the same view, hence equal in every getter
and in `Matches`; of two options on the same field other than the keys, the later one
wins: the view is the one built with the later option alone, and the field holds the
argument of the later option, for each of the five matcher fields and the five scalar
properties. -/
theorem C18_options_on_different_fields_commute
    [Inhabited AK] [Inhabited TP] [Inhabited AC]
    (opts : List (ViewOption AK TP AC)) (a b : OptionCall AK TP AC) :
    (a.field ≠ b.field →
      New (opts ++ [a.option, b.option]) = New (opts ++ [b.option, a.option]) ∧
      ∀ (lib : Library) (desc : Descriptor),
        (New (opts ++ [a.option, b.option])).Matches lib desc
          = (New (opts ++ [b.option, a.option])).Matches lib desc) ∧
    (a.field = b.field → a.field ≠ Field.keys →
      New (opts ++ [a.option, b.option]) = New (opts ++ [b.option])) ∧
    ((∀ n₁ n₂ : String,
        (New (opts ++ [MatchInstrumentName n₁, MatchInstrumentName n₂])).cfg.instrumentName
          = n₂) ∧
     (∀ r₁ r₂ : Option Regexp,
        (New (opts ++ [MatchInstrumentNameRegexp r₁,
          MatchInstrumentNameRegexp r₂])).cfg.instrumentNameRegexp = r₂) ∧
     (∀ k₁ k₂ : Int,
        (New (opts ++ [MatchInstrumentKind k₁, MatchInstrumentKind k₂])).cfg.instrumentKind
          = k₂) ∧
     (∀ k₁ k₂ : Int,
        (New (opts ++ [MatchNumberKind k₁, MatchNumberKind k₂])).cfg.numberKind = k₂) ∧
     (∀ l₁ l₂ : Library,
        (New (opts ++ [MatchInstrumentationLibrary l₁,
          MatchInstrumentationLibrary l₂])).cfg.library = l₂) ∧
     (∀ x₁ x₂ : String, (New (opts ++ [WithName x₁, WithName x₂])).Name = x₂) ∧
     (∀ d₁ d₂ : String,
        (New (opts ++ [WithDescription d₁, WithDescription d₂])).Description = d₂) ∧
     (∀ g₁ g₂ : AK,
        (New (opts ++ [WithAggregation g₁, WithAggregation g₂])).Aggregation = g₂) ∧
     (∀ t₁ t₂ : TP,
        (New (opts ++ [WithTemporality t₁, WithTemporality t₂])).Temporality = t₂) ∧
     (∀ c₁ c₂ : AC,
        (New (opts ++ [WithAggregatorConfig c₁, WithAggregatorConfig c₂])).AggregatorConfig
          = c₂)) := by
  refine ⟨?_, ?_, ?_⟩
  · intro h
    have heq : New (opts ++ [a.option, b.option]) = New (opts ++ [b.option, a.option]) := by
      rw [New_snoc_two, New_snoc_two, option_comm a b _ h]
    exact ⟨heq, fun lib desc => by rw [heq]⟩
  · intro h hk
    rw [New_snoc_two, New_snoc, option_overwrite a b _ h hk]
  · simp only [New_snoc_two]
    exact ⟨fun _ _ => rfl, fun _ _ => rfl, fun _ _ => rfl, fun _ _ => rfl,
      fun _ _ => rfl, fun _ _ => rfl, fun _ _ => rfl, fun _ _ => rfl, fun _ _ => rfl,
      fun _ _ => rfl⟩

/-- Witness for C18: `WithName("renamed")` and `MatchInstrumentKind(2)` in either order
build the same view; of `WithName("first")`, `WithName("second")` the second wins: the
view is the one built with `WithName("second")` alone and its name is `second`. -/
theorem C18_options_on_different_fields_commute_witness :
    (New ([] ++ [(OptionCall.withName "renamed" : OptionCall Unit Unit Unit).option,
        (OptionCall.matchInstrumentKind 2 : OptionCall Unit Unit Unit).option])
      = New ([] ++ [(OptionCall.matchInstrumentKind 2 : OptionCall Unit Unit Unit).option,
        (OptionCall.withName "renamed" : OptionCall Unit Unit Unit).option])) ∧
    (New ([] ++ [(OptionCall.withName "first" : OptionCall Unit Unit Unit).option,
        (OptionCall.withName "second" : OptionCall Unit Unit Unit).option])
      = New ([] ++ [(OptionCall.withName "second" : OptionCall Unit Unit Unit).option])) ∧
    (New ([] ++ [WithName "first", WithName "second"]) : View Unit Unit Unit).Name
      = "second" :=
  ⟨((C18_options_on_different_fields_commute []
      (OptionCall.withName "renamed" : OptionCall Unit Unit Unit)
      (OptionCall.matchInstrumentKind 2)).1 (by decide)).1,
    (C18_options_on_different_fields_commute []
      (OptionCall.withName "first" : OptionCall Unit Unit Unit)
      (OptionCall.withName "second")).2.1 rfl (by decide),
    (C18_options_on_different_fields_commute []
      (OptionCall.withName "first" : OptionCall Unit Unit Unit)
      (OptionCall.withName "second")).2.2.2.2.2.2.2.1 "first" "second"⟩

end optionClaims

end views
